import Mathlib

/-!
Shallow embedding of the two texture-export scripts
(`scripts/export-exr-hdr.py` and `scripts/export-ldr-formats.py`).

Images are lists of rows of pixels; a pixel is a function `Fin 3 → _`
(channel order R, G, B).  The 8-bit samples loaded from the PNG are
naturals in `[0, 255]`; the normalization `/ 255.0` is exact here and is
carried out in `ℚ`; the sRGB→linear transfer function lands in `ℝ`
(its second branch is a real power with exponent `2.4`).
-/

namespace ExportExrHdr

abbrev RawImage := List (List (Fin 3 → ℕ))
abbrev SrgbImage := List (List (Fin 3 → ℚ))
abbrev LinImage := List (List (Fin 3 → ℝ))

/-- `srgb_to_linear`: `np.where(srgb <= 0.04045, srgb / 12.92,
((srgb + 0.055) / 1.055) ** 2.4)`, restricted to a single sample
(`np.where` applies the formula elementwise). -/
noncomputable def srgb_to_linear (s : ℚ) : ℝ :=
  if s ≤ 0.04045 then (s : ℝ) / 12.92
  else (((s : ℝ) + 0.055) / 1.055) ^ (2.4 : ℝ)

/-- `img_srgb = iio.imread(...).astype(np.float32) / 255.0`: normalize the
8-bit samples to `[0, 1]`. -/
def img_srgb (raw : RawImage) : SrgbImage :=
  raw.map (fun row => row.map (fun p => fun c => (p c : ℚ) / 255))

/-- One entry of `np.all(img_srgb == 1.0, axis=-1)`: all three channels of
the pixel equal `1.0` exactly. -/
def all_white (p : Fin 3 → ℚ) : Bool :=
  decide (∀ c : Fin 3, p c = 1)

/-- `pure_white_mask = np.all(img_srgb == 1.0, axis=-1)`. -/
def pure_white_mask (img : SrgbImage) : List (List Bool) :=
  img.map (fun row => row.map all_white)

/-- `img_linear = srgb_to_linear(img_srgb)`: the conversion applied
elementwise to every sample. -/
noncomputable def img_linear (img : SrgbImage) : LinImage :=
  img.map (fun row => row.map (fun p => fun c => srgb_to_linear (p c)))

/-- `img_linear[pure_white_mask] *= 10.0`: multiply the three linear
channel values of every masked pixel by `10.0`, leave the rest alone. -/
noncomputable def apply_boost (lin : LinImage) (mask : List (List Bool)) : LinImage :=
  List.zipWith
    (fun lrow mrow =>
      List.zipWith (fun p m => if m then (fun c => p c * 10) else p) lrow mrow)
    lin mask

/-- The Tone Mapper pipeline on the decoded 8-bit image: normalize,
convert to linear, boost the pure-white pixels. -/
noncomputable def tone_map (raw : RawImage) : LinImage :=
  apply_boost (img_linear (img_srgb raw)) (pure_white_mask (img_srgb raw))

/-- `img_exr = img_linear.transpose(2, 0, 1)`: re-layout from
`(height, width, 3)` interleaved to `(3, height, width)` planar. -/
def img_exr (lin : LinImage) : List (List (List ℝ)) :=
  (List.finRange 3).map (fun c => lin.map (fun row => row.map (fun p => p c)))

/-- Pixel access with a default: row `i`, column `j`. -/
def px {α : Type} (img : List (List α)) (d : α) (i j : ℕ) : α :=
  (img.getD i []).getD j d

/-! ### List helper lemmas -/

lemma getD_map {α β : Type} (f : α → β) (d : α) :
    ∀ (l : List α) (i : ℕ), (l.map f).getD i (f d) = f (l.getD i d) := by
  intro l
  induction l with
  | nil => intro i; rfl
  | cons a t ih =>
    intro i
    cases i with
    | zero => rfl
    | succ n => simp [ih n]

lemma zipWith_map_same {α β γ δ : Type} (k : β → γ → δ) (f : α → β) (g : α → γ) :
    ∀ l : List α, List.zipWith k (l.map f) (l.map g) = l.map (fun x => k (f x) (g x)) := by
  intro l
  induction l with
  | nil => rfl
  | cons a t ih => simp [ih]

lemma px_map {α β : Type} (f : α → β) (img : List (List α)) (d : α) (i j : ℕ) :
    px (img.map (List.map f)) (f d) i j = f (px img d i j) := by
  unfold px
  have h0 : (List.map f ([] : List α)) = ([] : List β) := rfl
  rw [← h0, getD_map (List.map f) ([] : List α) img i, getD_map f d _ j]

lemma getD_mem_or {α : Type} (l : List α) (i : ℕ) (d : α) :
    l.getD i d ∈ l ∨ l.getD i d = d := by
  rcases Nat.lt_or_ge i l.length with h | h
  · left
    rw [List.getD_eq_getElem l d h]
    exact l.getElem_mem h
  · right
    exact List.getD_eq_default l d h

/-! ### Real-power helper lemmas: `x ^ (2.4 : ℝ)` compared through
`x ^ 12` versus `c ^ 5`, since `2.4 = 12 / 5`. -/

lemma rpow24_pow5 {x : ℝ} (hx : 0 ≤ x) :
    (x ^ (2.4 : ℝ)) ^ (5 : ℕ) = x ^ (12 : ℕ) := by
  rw [← Real.rpow_natCast (x ^ (2.4 : ℝ)) 5, ← Real.rpow_mul hx,
    ← Real.rpow_natCast x 12]
  norm_num

lemma lt_rpow24 {c x : ℝ} (hx : 0 ≤ x) (h : c ^ (5 : ℕ) < x ^ (12 : ℕ)) :
    c < x ^ (2.4 : ℝ) := by
  have h5 : c ^ (5 : ℕ) < (x ^ (2.4 : ℝ)) ^ (5 : ℕ) := by
    rw [rpow24_pow5 hx]; exact h
  exact lt_of_pow_lt_pow_left₀ 5 (Real.rpow_nonneg hx _) h5

lemma rpow24_lt {x u : ℝ} (hx : 0 ≤ x) (hu : 0 ≤ u)
    (h : x ^ (12 : ℕ) < u ^ (5 : ℕ)) : x ^ (2.4 : ℝ) < u := by
  have h5 : (x ^ (2.4 : ℝ)) ^ (5 : ℕ) < u ^ (5 : ℕ) := by
    rw [rpow24_pow5 hx]; exact h
  exact lt_of_pow_lt_pow_left₀ 5 hu h5

lemma le_rpow24 {c x : ℝ} (hx : 0 ≤ x) (h : c ^ (5 : ℕ) ≤ x ^ (12 : ℕ)) :
    c ≤ x ^ (2.4 : ℝ) := by
  have h5 : c ^ (5 : ℕ) ≤ (x ^ (2.4 : ℝ)) ^ (5 : ℕ) := by
    rw [rpow24_pow5 hx]; exact h
  exact le_of_pow_le_pow_left₀ (by norm_num) (Real.rpow_nonneg hx _) h5

/-! ### Basic facts about the transfer function -/

lemma srgb_to_linear_zero : srgb_to_linear 0 = 0 := by
  unfold srgb_to_linear
  rw [if_pos (by norm_num)]
  norm_num

lemma srgb_to_linear_nonneg {s : ℚ} (h0 : 0 ≤ s) : 0 ≤ srgb_to_linear s := by
  unfold srgb_to_linear
  split
  · positivity
  · have hb : (0 : ℝ) ≤ ((s : ℝ) + 0.055) / 1.055 := by
      have : (0 : ℝ) ≤ (s : ℝ) := by exact_mod_cast h0
      positivity
    exact Real.rpow_nonneg hb _

lemma srgb_to_linear_le_one {s : ℚ} (h0 : 0 ≤ s) (h1 : s ≤ 1) :
    srgb_to_linear s ≤ 1 := by
  unfold srgb_to_linear
  split
  · have hs1 : (s : ℝ) ≤ 1 := by exact_mod_cast h1
    have hs0 : (0 : ℝ) ≤ (s : ℝ) := by exact_mod_cast h0
    rw [div_le_one (by norm_num)]
    linarith
  · have hs0 : (0 : ℝ) ≤ (s : ℝ) := by exact_mod_cast h0
    have hs1 : (s : ℝ) ≤ 1 := by exact_mod_cast h1
    have hb0 : (0 : ℝ) ≤ ((s : ℝ) + 0.055) / 1.055 := by positivity
    have hb1 : ((s : ℝ) + 0.055) / 1.055 ≤ 1 := by
      rw [div_le_one (by norm_num)]
      linarith
    exact Real.rpow_le_one hb0 hb1 (by norm_num)

lemma srgb_to_linear_one : srgb_to_linear 1 = 1 := by
  unfold srgb_to_linear
  rw [if_neg (by norm_num)]
  have hb : (((1 : ℚ) : ℝ) + 0.055) / 1.055 = 1 := by push_cast; norm_num
  rw [hb, Real.one_rpow]

/-- The boosted/unboosted closed form of the pipeline: `zipWith` of the
mask into the linear image collapses to a single pixelwise map. -/
lemma tone_map_eq (raw : RawImage) :
    tone_map raw = (img_srgb raw).map (fun row => row.map (fun p =>
      if all_white p then (fun c => srgb_to_linear (p c) * 10)
      else (fun c => srgb_to_linear (p c)))) := by
  unfold tone_map apply_boost img_linear pure_white_mask
  simp only [zipWith_map_same]

lemma px_map_of {α β : Type} {f : α → β} {d : α} {d2 : β} (h : f d = d2)
    (img : List (List α)) (i j : ℕ) :
    px (img.map (List.map f)) d2 i j = f (px img d i j) := by
  rw [← h]
  exact px_map f img d i j

lemma px_img_linear (img : SrgbImage) (i j : ℕ) :
    px (img_linear img) (fun _ => 0) i j
      = (fun c => srgb_to_linear (px img (fun _ => 0) i j c)) := by
  unfold img_linear
  exact px_map_of (by funext c; exact srgb_to_linear_zero) img i j

lemma px_img_srgb (raw : RawImage) (i j : ℕ) :
    px (img_srgb raw) (fun _ => 0) i j
      = (fun c => ((px raw (fun _ => 0) i j c : ℚ) / 255)) := by
  unfold img_srgb
  exact px_map_of (by funext c; norm_num) raw i j

lemma px_tone_map (raw : RawImage) (i j : ℕ) :
    px (tone_map raw) (fun _ => 0) i j
      = (if all_white (px (img_srgb raw) (fun _ => 0) i j)
          then (fun c => srgb_to_linear ((px (img_srgb raw) (fun _ => 0) i j) c) * 10)
          else (fun c => srgb_to_linear ((px (img_srgb raw) (fun _ => 0) i j) c))) := by
  rw [tone_map_eq]
  exact px_map_of (by
    have hw : all_white (fun _ => 0) = false := by decide
    rw [hw]
    funext c
    exact srgb_to_linear_zero) (img_srgb raw) i j

/-- C1: every sample of the normalized input is converted by
`srgb_to_linear` as `s / 12.92` when `s ≤ 0.04045` and
`((s + 0.055) / 1.055) ^ 2.4` otherwise, and the conversion is applied
elementwise to every sample of the buffer, independently of the
pure-white mask (the linear image is built before any boost). -/
theorem srgb_formula_elementwise :
    (∀ s : ℚ, s ≤ 0.04045 → srgb_to_linear s = (s : ℝ) / 12.92) ∧
    (∀ s : ℚ, 0.04045 < s →
      srgb_to_linear s = (((s : ℝ) + 0.055) / 1.055) ^ (2.4 : ℝ)) ∧
    (∀ (img : SrgbImage) (i j : ℕ) (c : Fin 3),
      px (img_linear img) (fun _ => 0) i j c
        = srgb_to_linear (px img (fun _ => 0) i j c)) := by
  refine ⟨?_, ?_, ?_⟩
  · intro s h
    unfold srgb_to_linear
    rw [if_pos h]
  · intro s h
    unfold srgb_to_linear
    rw [if_neg (not_le.mpr h)]
  · intro img i j c
    rw [px_img_linear]

/-- Witness for C1 at the concrete samples `1/25` (linear branch) and
`1/2` (power branch). -/
theorem srgb_formula_elementwise_witness :
    srgb_to_linear (1/25) = ((1/25 : ℚ) : ℝ) / 12.92 ∧
    srgb_to_linear (1/2) = ((((1/2 : ℚ) : ℝ) + 0.055) / 1.055) ^ (2.4 : ℝ) ∧
    px (img_linear [[fun _ => 1/2]]) (fun _ => 0) 0 0 0
      = srgb_to_linear (px [[fun _ => (1/2 : ℚ)]] (fun _ => 0) 0 0 0) :=
  ⟨srgb_formula_elementwise.1 (1/25) (by norm_num),
   srgb_formula_elementwise.2.1 (1/2) (by norm_num),
   srgb_formula_elementwise.2.2 [[fun _ => 1/2]] 0 0 0⟩

/-- C2: a pixel whose three normalized sRGB channels all equal `1.0`
exactly gets every output channel equal to `10` times the linear
conversion of `1.0`; every other pixel's output channels are the plain
linear conversion of the corresponding sample, with no boost. -/
theorem pure_white_boost (raw : RawImage) (i j : ℕ) (c : Fin 3) :
    (all_white (px (img_srgb raw) (fun _ => 0) i j) = true →
      px (tone_map raw) (fun _ => 0) i j c = srgb_to_linear 1 * 10) ∧
    (all_white (px (img_srgb raw) (fun _ => 0) i j) = false →
      px (tone_map raw) (fun _ => 0) i j c
        = srgb_to_linear (px (img_srgb raw) (fun _ => 0) i j c)) := by
  have hpx := px_tone_map raw i j
  constructor
  · intro h
    rw [hpx, h]
    have hc : px (img_srgb raw) (fun _ => 0) i j c = 1 :=
      (of_decide_eq_true h) c
    simp [hc]
  · intro h
    rw [hpx, h]
    simp

/-- Witness for C2: a 1×2 image whose first pixel is `(255, 255, 255)`
(boosted) and whose second pixel is `(100, 100, 100)` (not boosted). -/
theorem pure_white_boost_witness :
    (all_white (px (img_srgb [[fun _ => 255, fun _ => 100]]) (fun _ => 0) 0 0) = true ∧
      px (tone_map [[fun _ => 255, fun _ => 100]]) (fun _ => 0) 0 0 0
        = srgb_to_linear 1 * 10) ∧
    (all_white (px (img_srgb [[fun _ => 255, fun _ => 100]]) (fun _ => 0) 0 1) = false ∧
      px (tone_map [[fun _ => 255, fun _ => 100]]) (fun _ => 0) 0 1 0
        = srgb_to_linear (px (img_srgb [[fun _ => 255, fun _ => 100]]) (fun _ => 0) 0 1 0)) := by
  have hW : all_white (px (img_srgb [[fun _ => 255, fun _ => 100]]) (fun _ => 0) 0 0) = true := by
    rw [px_img_srgb]
    simp only [all_white, decide_eq_true_eq]
    intro c
    norm_num [px]
  have hN : all_white (px (img_srgb [[fun _ => 255, fun _ => 100]]) (fun _ => 0) 0 1) = false := by
    rw [px_img_srgb]
    simp only [all_white, decide_eq_false_iff_not]
    intro h
    have h0 := h 0
    norm_num [px] at h0
  exact ⟨⟨hW, (pure_white_boost [[fun _ => 255, fun _ => 100]] 0 0 0).1 hW⟩,
    ⟨hN, (pure_white_boost [[fun _ => 255, fun _ => 100]] 0 1 0).2 hN⟩⟩

/-- C5: the Tone Mapper is deterministic and pure — it is a function of
the input buffer alone, so identical input buffers yield identical
linear output buffers and identical planar EXR buffers. -/
theorem tone_map_deterministic (a b : RawImage) (hab : a = b) :
    tone_map a = tone_map b ∧ img_exr (tone_map a) = img_exr (tone_map b) := by
  rw [hab]
  exact ⟨rfl, rfl⟩

/-- Witness for C5 at a concrete 1×1 buffer. -/
theorem tone_map_deterministic_witness :
    tone_map [[fun _ => 7]] = tone_map [[fun _ => 7]] ∧
    img_exr (tone_map [[fun _ => 7]]) = img_exr (tone_map [[fun _ => 7]]) :=
  tone_map_deterministic [[fun _ => 7]] [[fun _ => 7]] rfl

/-- C3: the planar re-layout of the Tone Mapper output of an
`(h, w, 3)` input buffer has dimensions `(3, h, w)`. -/
theorem exr_shape (raw : RawImage) (h w : ℕ)
    (hh : raw.length = h) (hw : ∀ row ∈ raw, row.length = w) :
    (img_exr (tone_map raw)).length = 3 ∧
    ∀ plane ∈ img_exr (tone_map raw),
      plane.length = h ∧ ∀ r ∈ plane, r.length = w := by
  have hlen : (tone_map raw).length = h := by
    rw [tone_map_eq, List.length_map]
    simpa [img_srgb] using hh
  have hrow : ∀ row ∈ tone_map raw, row.length = w := by
    intro row hr
    rw [tone_map_eq] at hr
    rcases List.mem_map.mp hr with ⟨row0, h0, rfl⟩
    rw [List.length_map]
    unfold img_srgb at h0
    rcases List.mem_map.mp h0 with ⟨rraw, hrr, rfl⟩
    rw [List.length_map]
    exact hw rraw hrr
  refine ⟨by simp [img_exr], ?_⟩
  intro plane hp
  unfold img_exr at hp
  rcases List.mem_map.mp hp with ⟨c, _, rfl⟩
  constructor
  · rw [List.length_map]
    exact hlen
  · intro r hrm
    rcases List.mem_map.mp hrm with ⟨row, hrow2, rfl⟩
    rw [List.length_map]
    exact hrow row hrow2

/-- Witness for C3 at a concrete 2×1 buffer. -/
theorem exr_shape_witness :
    ([[fun _ => 1], [fun _ => 2]] : RawImage).length = 2 ∧
    (∀ row ∈ ([[fun _ => 1], [fun _ => 2]] : RawImage), row.length = 1) ∧
    (img_exr (tone_map [[fun _ => 1], [fun _ => 2]])).length = 3 ∧
    ∀ plane ∈ img_exr (tone_map [[fun _ => 1], [fun _ => 2]]),
      plane.length = 2 ∧ ∀ r ∈ plane, r.length = 1 := by
  have hw : ∀ row ∈ ([[fun _ => 1], [fun _ => 2]] : RawImage), row.length = 1 := by
    decide
  have hmain := exr_shape [[fun _ => 1], [fun _ => 2]] 2 1 rfl hw
  exact ⟨rfl, hw, hmain.1, hmain.2⟩

lemma raw_sample_le (raw : RawImage)
    (hb : ∀ row ∈ raw, ∀ p ∈ row, ∀ c, p c ≤ 255) (i j : ℕ) (c : Fin 3) :
    px raw (fun _ => 0) i j c ≤ 255 := by
  unfold px
  rcases getD_mem_or raw i [] with hrow | hrow
  · rcases getD_mem_or (raw.getD i []) j (fun _ => 0) with hp | hp
    · exact hb _ hrow _ hp c
    · rw [hp]
      norm_num
  · rw [hrow]
    simp

lemma sample_mem_unit (raw : RawImage)
    (hb : ∀ row ∈ raw, ∀ p ∈ row, ∀ c, p c ≤ 255) (i j : ℕ) (c : Fin 3) :
    0 ≤ px (img_srgb raw) (fun _ => 0) i j c ∧
      px (img_srgb raw) (fun _ => 0) i j c ≤ 1 := by
  rw [px_img_srgb]
  have hn := raw_sample_le raw hb i j c
  constructor
  · positivity
  · rw [div_le_one (by norm_num)]
    exact_mod_cast hn

/-- C4: for an 8-bit input (samples in `[0, 255]`) every output value of
the Tone Mapper is nonnegative and at most `10`, and every value of a
pixel that is not pure white (hence not boosted) is at most
`linear(1.0) = 1`. -/
theorem output_range (raw : RawImage)
    (hb : ∀ row ∈ raw, ∀ p ∈ row, ∀ c, p c ≤ 255) (i j : ℕ) (c : Fin 3) :
    0 ≤ px (tone_map raw) (fun _ => 0) i j c ∧
    px (tone_map raw) (fun _ => 0) i j c ≤ 10 ∧
    (all_white (px (img_srgb raw) (fun _ => 0) i j) = false →
      px (tone_map raw) (fun _ => 0) i j c ≤ 1) := by
  obtain ⟨hs0, hs1⟩ := sample_mem_unit raw hb i j c
  rw [px_tone_map]
  by_cases hm : all_white (px (img_srgb raw) (fun _ => 0) i j)
  · have hc1 : px (img_srgb raw) (fun _ => 0) i j c = 1 := (of_decide_eq_true hm) c
    rw [if_pos hm]
    refine ⟨?_, ?_, ?_⟩
    · simp only [hc1, srgb_to_linear_one]
      norm_num
    · simp only [hc1, srgb_to_linear_one]
      norm_num
    · intro hfalse
      rw [hm] at hfalse
      cases hfalse
  · rw [if_neg hm]
    have h0 := srgb_to_linear_nonneg hs0
    have h1 := srgb_to_linear_le_one hs0 hs1
    exact ⟨h0, by linarith, fun _ => h1⟩

/-- Witness for C4 at a concrete 1×1 non-white buffer. -/
theorem output_range_witness :
    (∀ row ∈ ([[fun _ => 100]] : RawImage), ∀ p ∈ row, ∀ c, p c ≤ 255) ∧
    (0 ≤ px (tone_map [[fun _ => 100]]) (fun _ => 0) 0 0 0 ∧
      px (tone_map [[fun _ => 100]]) (fun _ => 0) 0 0 0 ≤ 10) := by
  have hb : ∀ row ∈ ([[fun _ => 100]] : RawImage), ∀ p ∈ row, ∀ c, p c ≤ 255 := by
    decide
  have hmain := output_range [[fun _ => 100]] hb 0 0 0
  exact ⟨hb, hmain.1, hmain.2.1⟩

/-- C6: at the branch boundary `s = 0.04045` the conversion takes the
linear branch, and the two branch formulas agree there to within
`10⁻⁸` (well inside single-precision tolerance), so the piecewise
function is continuous at the boundary up to that tolerance. -/
theorem branch_boundary_continuous :
    srgb_to_linear 0.04045 = ((0.04045 : ℚ) : ℝ) / 12.92 ∧
    |((0.04045 : ℚ) : ℝ) / 12.92
        - ((((0.04045 : ℚ) : ℝ) + 0.055) / 1.055) ^ (2.4 : ℝ)| < 1 / 10 ^ 8 := by
  have hc : ((0.04045 : ℚ) : ℝ) / 12.92 = (809 : ℝ) / 258400 := by
    push_cast
    norm_num
  have hx : (((0.04045 : ℚ) : ℝ) + 0.055) / 1.055 = (1909 : ℝ) / 21100 := by
    push_cast
    norm_num
  constructor
  · unfold srgb_to_linear
    rw [if_pos le_rfl]
  · rw [hc, hx]
    have hx0 : (0 : ℝ) ≤ (1909 : ℝ) / 21100 := by norm_num
    have hlt1 : (809 : ℝ) / 258400 < ((1909 : ℝ) / 21100) ^ (2.4 : ℝ) := by
      refine lt_rpow24 hx0 ?_
      norm_num
    have hlt2 : ((1909 : ℝ) / 21100) ^ (2.4 : ℝ) < (809 : ℝ) / 258400 + 1 / 10 ^ 8 := by
      refine rpow24_lt hx0 (by norm_num) ?_
      norm_num
    rw [abs_sub_lt_iff]
    constructor <;> linarith

/-- C9: the sRGB→linear conversion is monotone non-decreasing on
`[0, 1]` — in particular it does not decrease across the branch
boundary, because the power branch just above `0.04045` already exceeds
the linear branch's value there. -/
theorem srgb_to_linear_monotone (s1 s2 : ℚ) (h0 : 0 ≤ s1) (h12 : s1 ≤ s2)
    (h1 : s2 ≤ 1) : srgb_to_linear s1 ≤ srgb_to_linear s2 := by
  have hr12 : (s1 : ℝ) ≤ (s2 : ℝ) := by exact_mod_cast h12
  have hr0 : (0 : ℝ) ≤ (s1 : ℝ) := by exact_mod_cast h0
  unfold srgb_to_linear
  by_cases hA : s1 ≤ 0.04045 <;> by_cases hB : s2 ≤ 0.04045
  · rw [if_pos hA, if_pos hB]
    gcongr
  · rw [if_pos hA, if_neg hB]
    have hAr : (s1 : ℝ) ≤ ((0.04045 : ℚ) : ℝ) := by exact_mod_cast hA
    have hBr : ((0.04045 : ℚ) : ℝ) ≤ (s2 : ℝ) := by
      exact_mod_cast le_of_not_le hB
    have hA4 : (s1 : ℝ) ≤ (809 : ℝ) / 20000 := by
      have hq : ((0.04045 : ℚ) : ℝ) = (809 : ℝ) / 20000 := by push_cast; norm_num
      linarith [hq ▸ hAr]
    have hB4 : (809 : ℝ) / 20000 ≤ (s2 : ℝ) := by
      have hq : ((0.04045 : ℚ) : ℝ) = (809 : ℝ) / 20000 := by push_cast; norm_num
      linarith [hq ▸ hBr]
    have step1 : (s1 : ℝ) / 12.92 ≤ (809 : ℝ) / 258400 := by
      norm_num
      linarith
    have hxbase : (1909 : ℝ) / 21100 ≤ ((s2 : ℝ) + 0.055) / 1.055 := by
      rw [div_le_div_iff₀ (by norm_num) (by norm_num)]
      norm_num
      linarith
    have step2 : (809 : ℝ) / 258400 ≤ (((s2 : ℝ) + 0.055) / 1.055) ^ (2.4 : ℝ) := by
      calc (809 : ℝ) / 258400 ≤ ((1909 : ℝ) / 21100) ^ (2.4 : ℝ) := by
            refine le_rpow24 (by norm_num) ?_
            norm_num
        _ ≤ (((s2 : ℝ) + 0.055) / 1.055) ^ (2.4 : ℝ) :=
            Real.rpow_le_rpow (by norm_num) hxbase (by norm_num)
    linarith
  · exact absurd (le_trans h12 hB) hA
  · rw [if_neg hA, if_neg hB]
    refine Real.rpow_le_rpow (by positivity) ?_ (by norm_num)
    rw [div_le_div_iff₀ (by norm_num) (by norm_num)]
    linarith

/-- Witness for C9 at the endpoints `0` and `1`. -/
theorem srgb_to_linear_monotone_witness :
    (0 : ℚ) ≤ 0 ∧ (0 : ℚ) ≤ 1 ∧ (1 : ℚ) ≤ 1 ∧
    srgb_to_linear 0 ≤ srgb_to_linear 1 :=
  ⟨le_refl 0, by norm_num, le_refl 1,
    srgb_to_linear_monotone 0 1 (le_refl 0) (by norm_num) (le_refl 1)⟩

end ExportExrHdr

namespace ExportLdrFormats

open ExportExrHdr (px px_map px_map_of)

/-- Result of one iteration of the conversion loop: the printed
`Saved: ...` line, the printed `Failed to save ext: e` line, or the
printed `Skipping ext (unsupported format)` line. -/
inductive Outcome where
  | saved (filename : String)
  | failed (ext msg : String)
  | skipped (ext : String)
deriving DecidableEq

/-- The `formats` dictionary: extension ↦ encoder name.  Values are
`Option`s because the loop guards on `fmt is None`. -/
def formats : List (String × Option String) :=
  [("bmp", some "bmp"), ("dds", some "dds"), ("gif", some "gif"),
   ("ico", some "ico"), ("jpg", some "jpeg"), ("qoi", some "qoi"),
   ("tga", some "tga"), ("tif", some "tiff"), ("webp", some "webp"),
   ("pam", some "pam"), ("ppm", some "ppm")]

/-- `os.path.join(output_dir, f"{ext}.{ext}")` with `output_dir = "./"`. -/
def output_filename (output_dir ext : String) : String :=
  output_dir ++ ext ++ "." ++ ext

/-- One iteration of the loop body.  The per-format encoding work
(`img.save`, `iio.imwrite`, `qoi.encode`, ...) is an external codec
call, abstracted as `encode filename fmt`, which either succeeds or
raises an exception carrying a message. -/
def export_one (encode : String → String → Except String Unit)
    (ext : String) (fmt : Option String) : Outcome :=
  match fmt with
  | none => Outcome.skipped ext
  | some f =>
    match encode (output_filename "./" ext) f with
    | Except.ok _ => Outcome.saved (output_filename "./" ext)
    | Except.error e => Outcome.failed ext e

/-- The whole `for ext, fmt in formats.items()` loop: each format is
processed by its own `try`/`except`, carrying no state from one
iteration to the next. -/
def export_loop (encode : String → String → Except String Unit) : List Outcome :=
  formats.map (fun p => export_one encode p.1 p.2)

/-- `img_bgra = img_array_rgba[..., [2, 1, 0]]`: before the DDS write
(and only there), reindex every pixel's channels by `(2, 1, 0)`. -/
def img_bgra (img : List (List (Fin 3 → ℕ))) : List (List (Fin 3 → ℕ)) :=
  img.map (fun row => row.map (fun p => fun c => p (![2, 1, 0] c)))

/-- C7: every format of the list is attempted exactly once, in order,
and its outcome is computed from that format alone, so a failure of one
format (recorded as a `failed` outcome carrying the format name and the
error message) cannot prevent any other format from being attempted;
the attempted output filename always ends in `"." ++ ext`. -/
theorem loop_failure_isolation (encode : String → String → Except String Unit) :
    (export_loop encode).length = formats.length ∧
    (∀ (k : ℕ) (hk : k < formats.length),
      (export_loop encode).getD k (Outcome.skipped "")
        = export_one encode (formats.get ⟨k, hk⟩).1 (formats.get ⟨k, hk⟩).2) ∧
    (∀ (k : ℕ) (hk : k < formats.length) (f e : String),
      (formats.get ⟨k, hk⟩).2 = some f →
      encode (output_filename "./" (formats.get ⟨k, hk⟩).1) f = Except.error e →
      (export_loop encode).getD k (Outcome.skipped "")
        = Outcome.failed (formats.get ⟨k, hk⟩).1 e) ∧
    (∀ p ∈ formats, ∃ stem, output_filename "./" p.1 = stem ++ "." ++ p.1) := by
  have hidx : ∀ (k : ℕ) (hk : k < formats.length),
      (export_loop encode).getD k (Outcome.skipped "")
        = export_one encode (formats.get ⟨k, hk⟩).1 (formats.get ⟨k, hk⟩).2 := by
    intro k hk
    unfold export_loop
    rw [List.getD_eq_getElem _ _ (by simpa using hk), List.getElem_map]
    rfl
  refine ⟨by simp [export_loop], hidx, ?_, ?_⟩
  · intro k hk f e hf he
    rw [hidx k hk, hf]
    simp only [export_one, he]
  · intro p _
    exact ⟨"./" ++ p.1, rfl⟩

/-- Witness for C7: an encoder that fails exactly on `jpeg` produces a
logged failure for `jpg` (entry 4) while the following format `qoi`
(entry 5) is still attempted and succeeds. -/
theorem loop_failure_isolation_witness :
    (export_loop (fun _ f => if f = "jpeg" then Except.error "boom" else Except.ok ())).getD 4
        (Outcome.skipped "") = Outcome.failed "jpg" "boom" ∧
    (export_loop (fun _ f => if f = "jpeg" then Except.error "boom" else Except.ok ())).getD 5
        (Outcome.skipped "") = Outcome.saved "./qoi.qoi" ∧
    output_filename "./" "jpg" = "./" ++ "jpg" ++ "." ++ "jpg" := by
  refine ⟨?_, ?_, rfl⟩
  · exact (loop_failure_isolation
      (fun _ f => if f = "jpeg" then Except.error "boom" else Except.ok ())).2.2.1
      4 (by decide) "jpeg" "boom" rfl rfl
  · rw [(loop_failure_isolation
      (fun _ f => if f = "jpeg" then Except.error "boom" else Except.ok ())).2.1
      5 (by decide)]
    decide

/-- C8: the array handed to the DDS encoder is the source image with
red and blue swapped: channel 0 holds the source's channel 2, channel 1
is unchanged, channel 2 holds the source's channel 0, for every pixel. -/
theorem dds_swaps_red_blue (img : List (List (Fin 3 → ℕ))) (i j : ℕ) :
    px (img_bgra img) (fun _ => 0) i j 0 = px img (fun _ => 0) i j 2 ∧
    px (img_bgra img) (fun _ => 0) i j 1 = px img (fun _ => 0) i j 1 ∧
    px (img_bgra img) (fun _ => 0) i j 2 = px img (fun _ => 0) i j 0 := by
  have hpx : px (img_bgra img) (fun _ => 0) i j
      = (fun c => px img (fun _ => 0) i j (![2, 1, 0] c)) := by
    unfold img_bgra
    exact @px_map_of (Fin 3 → ℕ) (Fin 3 → ℕ)
      (fun p => fun c => p (![2, 1, 0] c)) (fun _ => 0) (fun _ => 0) rfl img i j
  rw [hpx]
  refine ⟨rfl, rfl, rfl⟩

/-- C10: every value of the `formats` dictionary is a real encoder name
(`some _`), so the `Skipping ... (unsupported format)` branch is
unreachable: no outcome of the loop is ever `skipped`, for any encoder
behavior. -/
theorem skip_branch_unreachable :
    (∀ p ∈ formats, p.2 ≠ none) ∧
    (∀ (encode : String → String → Except String Unit) (o : Outcome),
      o ∈ export_loop encode → ∀ ext, o ≠ Outcome.skipped ext) := by
  have hall : ∀ p ∈ formats, p.2 ≠ none := by decide
  constructor
  · exact hall
  · intro encode o ho ext
    unfold export_loop at ho
    rcases List.mem_map.mp ho with ⟨p, hp, rfl⟩
    have hp2 : p.2 ≠ none := hall p hp
    unfold export_one
    rcases p with ⟨pext, _ | f⟩
    · exact absurd rfl hp2
    · cases henc : encode (output_filename "./" pext) f <;> simp [henc]

/-- Witness for C10: the first dictionary entry has a non-`none` value,
and with an always-succeeding encoder no loop outcome is `skipped`. -/
theorem skip_branch_unreachable_witness :
    (("bmp", some "bmp") : String × Option String).2 ≠ none ∧
    ((export_loop (fun _ _ => Except.ok ())).getD 0 (Outcome.saved "")
      ≠ Outcome.skipped "bmp") := by
  constructor
  · exact skip_branch_unreachable.1 ("bmp", some "bmp") (by decide)
  · intro h
    have hmem : (export_loop (fun _ _ => Except.ok ())).getD 0 (Outcome.saved "")
        ∈ export_loop (fun _ _ => Except.ok ()) := by decide
    exact skip_branch_unreachable.2 (fun _ _ => Except.ok ()) _ hmem "bmp" h

end ExportLdrFormats
